import Mathlib

/-!
Shallow embedding of the locally defined code of the llama_index_raptor_pack
notebook repository, and proofs about it.

The repository is a set of tutorial notebooks.  The locally defined code
consists of:
- the function relative_score_fusion in qdrant_hybrid.ipynb, which fuses a
  dense and a sparse retrieval result (similarities are Python floats,
  embedded here as rationals; Python float division by zero raises
  ZeroDivisionError, max and min of an empty list raise ValueError, and the
  four leading assert statements raise AssertionError; list.sort with a key
  and reverse=True is a stable descending sort by the key, embedded as a
  stable insertion sort by the same key);
- the index-loading cell of the agent notebook, which wraps three
  load_index_from_storage calls in a bare try/except and sets a flag;
- the tool function magic_formula(revenue, cost) = revenue - cost;
- the async function get_agent_with_context_awareness, which awaits one
  retrieval call and builds a FunctionAgent from a locally formatted
  system prompt (the awaited SDK call is embedded as an oracle function);
- the async main of the deepinfra embedding notebook, which awaits a single
  embedding call on the text "hello world";
- the event handler GetTrustworthinessScore.handle of the Cleanlab notebook
  (a Python dict subscript raises KeyError when the key is absent).

External SDK calls are embedded as oracle function arguments; Python dicts
over string keys are embedded as insertion-ordered association lists with
Python dict update semantics.
-/

/-- Error values of the Python exceptions that the embedded code can raise. -/
inductive PyError where
  | assertionError
  | valueError
  | zeroDivisionError
  | keyError
deriving DecidableEq, Repr

/-- A retrieved text node, as used by the fusion function: only its node_id
and text payload are relevant. -/
structure TextNode where
  node_id : String
  text : String
deriving DecidableEq, Repr

/-- The llama-index VectorStoreQueryResult record: three optional fields. -/
structure VectorStoreQueryResult where
  nodes : Option (List TextNode)
  similarities : Option (List ℚ)
  ids : Option (List String)
deriving DecidableEq, Repr

/-- Python max over a list: raises ValueError on the empty list. -/
def pyMax : List ℚ → Except PyError ℚ
  | [] => .error .valueError
  | x :: xs => .ok (xs.foldl max x)

/-- Python min over a list: raises ValueError on the empty list. -/
def pyMin : List ℚ → Except PyError ℚ
  | [] => .error .valueError
  | x :: xs => .ok (xs.foldl min x)

/-- Python float division: raises ZeroDivisionError when the divisor is 0. -/
def pyDiv (a b : ℚ) : Except PyError ℚ :=
  if b = 0 then .error .zeroDivisionError else .ok (a / b)

/-- Python slice l[:k] for an integer k: a nonnegative k takes the first k
elements, a negative k drops the last -k elements. -/
def pySlice (k : ℤ) (l : List α) : List α :=
  if 0 ≤ k then l.take k.toNat else l.take ((l.length : ℤ) + k).toNat

/-- Python dict insertion d[k] = v on an insertion-ordered association list:
an existing key keeps its position and gets the new value, a new key is
appended at the end. -/
def pyDictInsert (d : List (String × α)) (k : String) (v : α) : List (String × α) :=
  if d.any (fun p => decide (p.1 = k)) then
    d.map (fun p => if p.1 = k then (k, v) else p)
  else d ++ [(k, v)]

/-- Python dict built from a list of key-value pairs (dict comprehension):
successive insertion, later duplicates overwrite in place. -/
def pyDictOf (ps : List (String × α)) : List (String × α) :=
  ps.foldl (fun d p => pyDictInsert d p.1 p.2) []

/-- Lookup of a key in the association list embedding of a Python dict. -/
def pyDictFind (d : List (String × α)) (k : String) : Option α :=
  (d.find? (fun p => decide (p.1 = k))).map Prod.snd

/-- Python d.get(k, v0): the stored value when the key is present, v0 when
absent. -/
def pyDictGetD (d : List (String × α)) (k : String) (v₀ : α) : α :=
  (pyDictFind d k).getD v₀

/-- Python d[k]: the stored value when the key is present, KeyError when
absent. -/
def pyDictGetItem (d : List (String × α)) (k : String) : Except PyError α :=
  match pyDictFind d k with
  | some v => .ok v
  | none => .error .keyError

/-- Membership test k in d of a Python dict. -/
def pyDictContains (d : List (String × α)) (k : String) : Bool :=
  d.any (fun p => decide (p.1 = k))

/-- Descending order on score-node pairs, comparing the score component:
the order used by list.sort(key=lambda x: x[0], reverse=True). -/
def scoreGE (a b : ℚ × α) : Prop := b.1 ≤ a.1

instance : DecidableRel (@scoreGE α) :=
  fun a b => inferInstanceAs (Decidable (b.1 ≤ a.1))

instance : IsTotal (ℚ × α) scoreGE := ⟨fun a b => le_total b.1 a.1⟩

instance : IsTrans (ℚ × α) scoreGE := ⟨fun _ _ _ h₁ h₂ => le_trans h₂ h₁⟩

/-- Embedding of list.sort(key=lambda x: x[0], reverse=True): a stable sort
into descending order of the first component. -/
def sortByScoreDesc (l : List (ℚ × α)) : List (ℚ × α) :=
  l.insertionSort scoreGE

/-- The list comprehension that min-max normalizes a list of similarities:
each element maps to (x - lo) / (hi - lo), where Python float division
raises ZeroDivisionError when hi - lo is zero. -/
def normalizeSims (lo hi : ℚ) : List ℚ → Except PyError (List ℚ)
  | [] => .ok []
  | x :: xs =>
    match pyDiv (x - lo) (hi - lo) with
    | .error e => .error e
    | .ok y =>
      match normalizeSims lo hi xs with
      | .error e => .error e
      | .ok ys => .ok (y :: ys)

/-- The normalization block of relative_score_fusion, which the source
repeats verbatim for the sparse and the dense tuples: take the similarity
components, compute their max and min, min-max normalize them, and build
the per-node dict from node_id to normalized similarity. -/
def normalizedPerNode (tuples : List (ℚ × TextNode)) :
    Except PyError (List (String × ℚ)) :=
  let sims := tuples.map Prod.fst
  match pyMax sims with
  | .error e => .error e
  | .ok hi =>
    match pyMin sims with
    | .error e => .error e
    | .ok lo =>
      match normalizeSims lo hi sims with
      | .error e => .error e
      | .ok norm => .ok (pyDictOf ((tuples.map (fun t => t.2.node_id)).zip norm))

/-- The all_nodes_dict of relative_score_fusion: a dict of the dense nodes
keyed by node_id, then each sparse node inserted only when its node_id is
not yet present. -/
def allNodesDict (dense_nodes sparse_nodes : List TextNode) :
    List (String × TextNode) :=
  sparse_nodes.foldl
    (fun d node =>
      if pyDictContains d node.node_id then d else pyDictInsert d node.node_id node)
    (pyDictOf (dense_nodes.map (fun x => (x.node_id, x))))

/-- The fused score of one node: fused_sim = alpha * (sparse_sim + dense_sim)
from the fuse-the-scores loop of relative_score_fusion. -/
def fuse (alpha sparse_sim dense_sim : ℚ) : ℚ :=
  alpha * (sparse_sim + dense_sim)

/-- The fuse-the-scores loop of relative_score_fusion: for every node_id of
all_nodes_dict, pair the fused score (a similarity absent on one side
contributes the default 0 of dict.get) with the stored node. -/
def fusedEntries (all_nodes : List (String × TextNode))
    (sparse_per_node dense_per_node : List (String × ℚ)) (alpha : ℚ) :
    List (ℚ × TextNode) :=
  all_nodes.map (fun kv =>
    (fuse alpha (pyDictGetD sparse_per_node kv.1 0) (pyDictGetD dense_per_node kv.1 0),
      kv.2))

/-- Body of relative_score_fusion after the four asserts have passed, on the
unpacked nodes and similarities lists. -/
def relative_score_fusion_core (dense_nodes : List TextNode) (dense_sims : List ℚ)
    (sparse_nodes : List TextNode) (sparse_sims : List ℚ)
    (alpha : ℚ) (top_k : ℤ) : Except PyError VectorStoreQueryResult :=
  let sparse_result_tuples := sortByScoreDesc (sparse_sims.zip sparse_nodes)
  let dense_result_tuples := sortByScoreDesc (dense_sims.zip dense_nodes)
  let all_nodes_dict := allNodesDict dense_nodes sparse_nodes
  match normalizedPerNode sparse_result_tuples with
  | .error e => .error e
  | .ok sparse_per_node =>
    match normalizedPerNode dense_result_tuples with
    | .error e => .error e
    | .ok dense_per_node =>
      let fused :=
        sortByScoreDesc (fusedEntries all_nodes_dict sparse_per_node dense_per_node alpha)
      let fused_top := pySlice top_k fused
      .ok { nodes := some (fused_top.map Prod.snd),
            similarities := some (fused_top.map Prod.fst),
            ids := some (fused_top.map (fun t => t.2.node_id)) }

/-- The function relative_score_fusion of qdrant_hybrid.ipynb.  The four
leading assert statements raise AssertionError when a nodes or similarities
field is None; then the body runs on the unpacked lists. -/
def relative_score_fusion (dense_result sparse_result : VectorStoreQueryResult)
    (alpha : ℚ) (top_k : ℤ) : Except PyError VectorStoreQueryResult :=
  match dense_result.nodes with
  | none => .error .assertionError
  | some dense_nodes =>
    match dense_result.similarities with
    | none => .error .assertionError
    | some dense_sims =>
      match sparse_result.nodes with
      | none => .error .assertionError
      | some sparse_nodes =>
        match sparse_result.similarities with
        | none => .error .assertionError
        | some sparse_sims =>
          relative_score_fusion_core dense_nodes dense_sims sparse_nodes
            sparse_sims alpha top_k

/-- Error values standing for the exceptions an external SDK call can raise
in the index-loading cell. -/
inductive SdkError where
  | fileNotFoundError
  | otherError (msg : String)
deriving DecidableEq, Repr

/-- State of the notebook variables after the index-loading cell has run:
which of the three index variables got assigned, and the index_loaded flag. -/
structure LoadIndicesResult (ι : Type) where
  march_index : Option ι
  june_index : Option ι
  sept_index : Option ι
  index_loaded : Bool
deriving DecidableEq, Repr

/-- The index-loading cell of the agent notebook: three
load_index_from_storage calls inside try, with index_loaded = True as the
last statement of the try block; the bare except sets index_loaded = False.
The external loads are embedded as an oracle from the persist_dir string to
an SDK outcome.  The cell is total: every SDK exception is caught. -/
def load_indices {ι : Type} (load : String → Except SdkError ι) :
    LoadIndicesResult ι :=
  match load "./storage/march" with
  | .error _ =>
    { march_index := none, june_index := none, sept_index := none, index_loaded := false }
  | .ok m =>
    match load "./storage/june" with
    | .error _ =>
      { march_index := some m, june_index := none, sept_index := none, index_loaded := false }
    | .ok j =>
      match load "./storage/sept" with
      | .error _ =>
        { march_index := some m, june_index := some j, sept_index := none,
          index_loaded := false }
      | .ok s =>
        { march_index := some m, june_index := some j, sept_index := some s,
          index_loaded := true }

/-- The tool function magic_formula of the agent notebook:
return revenue - cost. -/
def magic_formula (revenue cost : ℤ) : ℤ :=
  revenue - cost

/-- A retrieval result item as consumed by get_agent_with_context_awareness:
a node with a score. -/
structure NodeWithScore where
  node : TextNode
  score : ℚ
deriving DecidableEq, Repr

/-- The FunctionAgent record as constructed by the agent notebook: the tools
list, a language model (identified here by its model name), and the system
prompt string. -/
structure FunctionAgent (τ : Type) where
  tools : List τ
  llm : String
  system_prompt : String
deriving DecidableEq, Repr

/-- The system_prompt_template of the agent notebook with its single
format placeholder applied: the embedding of
system_prompt_template.format(context=context). -/
def system_prompt_template (context : String) : String :=
  "You are a helpful assistant. \nHere is some context that you can use to answer the user\x27s question and for help with picking the right tool:\n\n"
    ++ context ++ "\n"

/-- The async function get_agent_with_context_awareness of the agent
notebook.  The awaited SDK call context_retriever.aretrieve(query) is
embedded as an oracle function applied once to the query; the function then
joins the retrieved node texts with the separator string and builds a
FunctionAgent over the formatted system prompt and an OpenAI gpt-4o model. -/
def get_agent_with_context_awareness {τ : Type} (query : String)
    (context_retriever : String → List NodeWithScore) (tools : List τ) :
    FunctionAgent τ :=
  let context_nodes := context_retriever query
  let context_text := String.intercalate "\n----\n" (context_nodes.map (fun n => n.node.text))
  { tools := tools, llm := "gpt-4o", system_prompt := system_prompt_template context_text }

/-- The async main of the deepinfra embedding notebook: it awaits a single
aget_text_embedding call on the text "hello world" and returns its
response.  The awaited SDK call is embedded as an oracle function. -/
def deepinfra_async_main (aget_text_embedding : String → List ℚ) : List ℚ :=
  aget_text_embedding "hello world"

/-- A completion response as seen by the Cleanlab event handler: the
response text and the additional_kwargs dict (embedded with rational
values, of which only the trustworthiness score entry is read). -/
structure CompletionResponse where
  text : String
  additional_kwargs : List (String × ℚ)
deriving DecidableEq, Repr

/-- An instrumentation event dispatched to the handler: either an
LLMCompletionEndEvent carrying a response, or any other event kind,
identified by its class name. -/
inductive InstrumentationEvent where
  | llmCompletionEnd (response : CompletionResponse)
  | otherEvent (className : String)
deriving DecidableEq, Repr

/-- The mutable state of a GetTrustworthinessScore handler: the events list
and the trustworthiness_score attribute (initialized to 0.0 in the class
body). -/
structure GetTrustworthinessScoreState where
  events : List InstrumentationEvent
  trustworthiness_score : ℚ
deriving DecidableEq, Repr

/-- The handle method of GetTrustworthinessScore in cleanlab_tlm_rag.ipynb:
on an LLMCompletionEndEvent it sets trustworthiness_score to
event.response.additional_kwargs["trustworthiness_score"] and then appends
the event to events; the dict subscript raises KeyError when the key is
absent, in which case neither attribute changes; on any other event the
body does nothing. -/
def GetTrustworthinessScore.handle (state : GetTrustworthinessScoreState)
    (event : InstrumentationEvent) : Except PyError GetTrustworthinessScoreState :=
  match event with
  | .llmCompletionEnd response =>
    match pyDictGetItem response.additional_kwargs "trustworthiness_score" with
    | .error e => .error e
    | .ok score =>
      .ok { events := state.events ++ [InstrumentationEvent.llmCompletionEnd response],
            trustworthiness_score := score }
  | .otherEvent _ => .ok state

/-- Concrete example node used in the witness computations. -/
def nodeA : TextNode := ⟨"a", "textA"⟩

/-- Concrete example node used in the witness computations. -/
def nodeB : TextNode := ⟨"b", "textB"⟩

/-- Concrete example node used in the witness computations. -/
def nodeC : TextNode := ⟨"c", "textC"⟩

/-- Concrete dense retrieval result used in the witness computations. -/
def denseResultEx : VectorStoreQueryResult :=
  { nodes := some [nodeA, nodeB], similarities := some [3, 1], ids := some ["a", "b"] }

/-- Concrete sparse retrieval result used in the witness computations. -/
def sparseResultEx : VectorStoreQueryResult :=
  { nodes := some [nodeB, nodeC], similarities := some [5, 10], ids := some ["b", "c"] }

/-- The value relative_score_fusion returns on the two example results with
alpha = 1/2 and top_k = 2, computed by hand from the code. -/
def fusionResultEx : VectorStoreQueryResult :=
  { nodes := some [nodeA, nodeC], similarities := some [1/2, 1/2], ids := some ["a", "c"] }

/-- Evaluation of the normalization block on the sorted sparse tuples of
the example. -/
lemma ev_norm_sparse : normalizedPerNode [((10:ℚ), nodeC), (5, nodeB)] =
    .ok [("c", 1), ("b", 0)] := by
  have hmax : pyMax [(10:ℚ), 5] = .ok 10 := by norm_num [pyMax, max_def]
  have hmin : pyMin [(10:ℚ), 5] = .ok 5 := by norm_num [pyMin, min_def]
  have hns : normalizeSims 5 10 [10, 5] = .ok [1, 0] := by norm_num [normalizeSims, pyDiv]
  simp only [normalizedPerNode, List.map_cons, List.map_nil, Prod.fst, hmax, hmin, hns]
  rfl

/-- Evaluation of the normalization block on the sorted dense tuples of
the example. -/
lemma ev_norm_dense : normalizedPerNode [((3:ℚ), nodeA), (1, nodeB)] =
    .ok [("a", 1), ("b", 0)] := by
  have hmax : pyMax [(3:ℚ), 1] = .ok 3 := by norm_num [pyMax, max_def]
  have hmin : pyMin [(3:ℚ), 1] = .ok 1 := by norm_num [pyMin, min_def]
  have hns : normalizeSims 1 3 [3, 1] = .ok [1, 0] := by norm_num [normalizeSims, pyDiv]
  simp only [normalizedPerNode, List.map_cons, List.map_nil, Prod.fst, hmax, hmin, hns]
  rfl

/-- Evaluation of the fuse-and-sort step on the example. -/
lemma ev_fused_sorted :
    sortByScoreDesc (fusedEntries [("a", nodeA), ("b", nodeB), ("c", nodeC)]
      [("c", 1), ("b", 0)] [("a", 1), ("b", 0)] (1/2)) =
    [(1/2, nodeA), (1/2, nodeC), (0, nodeB)] := by
  have hent : fusedEntries [("a", nodeA), ("b", nodeB), ("c", nodeC)] [("c", 1), ("b", 0)]
      [("a", 1), ("b", 0)] (1/2) =
      [(fuse (1/2) 0 1, nodeA), (fuse (1/2) 0 0, nodeB), (fuse (1/2) 1 0, nodeC)] := rfl
  have h1 : fuse (1/2) 0 1 = 1/2 := by norm_num [fuse]
  have h2 : fuse (1/2) 0 0 = 0 := by norm_num [fuse]
  have h3 : fuse (1/2) 1 0 = 1/2 := by norm_num [fuse]
  rw [hent, h1, h2, h3]
  norm_num [sortByScoreDesc, List.insertionSort, List.orderedInsert, scoreGE]

/-- End-to-end evaluation of relative_score_fusion on the example inputs. -/
lemma ev_fusion : relative_score_fusion denseResultEx sparseResultEx (1/2) 2 =
    .ok fusionResultEx := by
  have h0 : relative_score_fusion denseResultEx sparseResultEx (1/2) 2 =
      relative_score_fusion_core [nodeA, nodeB] [3, 1] [nodeB, nodeC] [5, 10] (1/2) 2 := rfl
  have hzipS : (([(5:ℚ), 10]).zip [nodeB, nodeC]) = [(5, nodeB), (10, nodeC)] := rfl
  have hzipD : (([(3:ℚ), 1]).zip [nodeA, nodeB]) = [(3, nodeA), (1, nodeB)] := rfl
  have hsortS : sortByScoreDesc [((5:ℚ), nodeB), (10, nodeC)] = [(10, nodeC), (5, nodeB)] := by
    norm_num [sortByScoreDesc, List.insertionSort, List.orderedInsert, scoreGE]
  have hsortD : sortByScoreDesc [((3:ℚ), nodeA), (1, nodeB)] = [(3, nodeA), (1, nodeB)] := by
    norm_num [sortByScoreDesc, List.insertionSort, List.orderedInsert, scoreGE]
  have hall : allNodesDict [nodeA, nodeB] [nodeB, nodeC] =
      [("a", nodeA), ("b", nodeB), ("c", nodeC)] := rfl
  rw [h0]
  simp only [relative_score_fusion_core, hzipS, hzipD, hsortS, hsortD, hall,
    ev_norm_sparse, ev_norm_dense, ev_fused_sorted, pySlice]
  norm_num [fusionResultEx]
  exact ⟨rfl, rfl, rfl⟩

lemma contains_iff_mem_keys {α : Type} (d : List (String × α)) (k : String) :
    d.any (fun p => decide (p.1 = k)) = true ↔ k ∈ d.map Prod.fst := by
  rw [List.any_eq_true]
  constructor
  · rintro ⟨p, hp, hpe⟩
    exact List.mem_map.mpr ⟨p, hp, of_decide_eq_true hpe⟩
  · intro h
    obtain ⟨p, hp, hpe⟩ := List.mem_map.mp h
    exact ⟨p, hp, decide_eq_true hpe⟩

lemma nodup_singleton_append {α : Type} {l : List α} {a : α} (h : l.Nodup) (ha : a ∉ l) :
    (l ++ [a]).Nodup := by
  rw [← List.concat_eq_append]
  exact List.Nodup.concat ha h

lemma pyDictInsert_keys {α : Type} (d : List (String × α)) (k : String) (v : α) :
    (pyDictInsert d k v).map Prod.fst =
      if k ∈ d.map Prod.fst then d.map Prod.fst else d.map Prod.fst ++ [k] := by
  unfold pyDictInsert
  by_cases h : k ∈ d.map Prod.fst
  · rw [if_pos ((contains_iff_mem_keys d k).mpr h), if_pos h, List.map_map]
    refine List.map_congr_left ?_
    intro p _
    by_cases hp : p.1 = k
    · simp [hp]
    · simp [hp]
  · rw [if_neg (fun hc => h ((contains_iff_mem_keys d k).mp hc)), if_neg h]
    simp

lemma mem_pyDictInsert {α : Type} {d : List (String × α)} {k : String} {v : α} {p : String × α}
    (h : p ∈ pyDictInsert d k v) : p ∈ d ∨ p = (k, v) := by
  unfold pyDictInsert at h
  by_cases hc : d.any (fun p => decide (p.1 = k)) = true
  · rw [if_pos hc] at h
    obtain ⟨q, hq, hqe⟩ := List.mem_map.mp h
    by_cases hqk : q.1 = k
    · right
      rw [if_pos hqk] at hqe
      exact hqe.symm
    · left
      rw [if_neg hqk] at hqe
      exact hqe ▸ hq
  · rw [if_neg hc] at h
    rcases List.mem_append.mp h with h' | h'
    · exact Or.inl h'
    · exact Or.inr (List.mem_singleton.mp h')

lemma nodup_keys_pyDictInsert {α : Type} {d : List (String × α)} {k : String} {v : α}
    (h : (d.map Prod.fst).Nodup) : ((pyDictInsert d k v).map Prod.fst).Nodup := by
  rw [pyDictInsert_keys]
  by_cases hk : k ∈ d.map Prod.fst
  · rwa [if_pos hk]
  · rw [if_neg hk]
    exact nodup_singleton_append h hk

lemma mem_keys_pyDictInsert {α : Type} {d : List (String × α)} {k k' : String} {v : α} :
    k' ∈ (pyDictInsert d k v).map Prod.fst ↔ k' ∈ d.map Prod.fst ∨ k' = k := by
  rw [pyDictInsert_keys]
  by_cases hk : k ∈ d.map Prod.fst
  · rw [if_pos hk]
    constructor
    · exact Or.inl
    · rintro (h | rfl)
      · exact h
      · exact hk
  · rw [if_neg hk]
    simp

lemma mem_foldl_pyDictInsert {α : Type} :
    ∀ (ps : List (String × α)) (d : List (String × α)) (p : String × α),
      p ∈ ps.foldl (fun d q => pyDictInsert d q.1 q.2) d → p ∈ d ∨ p ∈ ps := by
  intro ps
  induction ps with
  | nil => intro d p h; exact Or.inl h
  | cons q qs ih =>
    intro d p h
    rcases ih (pyDictInsert d q.1 q.2) p h with h' | h'
    · rcases mem_pyDictInsert h' with h'' | h''
      · exact Or.inl h''
      · exact Or.inr (by simp [h''])
    · exact Or.inr (List.mem_cons_of_mem q h')

lemma mem_pyDictOf {α : Type} {ps : List (String × α)} {p : String × α}
    (h : p ∈ pyDictOf ps) : p ∈ ps := by
  rcases mem_foldl_pyDictInsert ps [] p h with h' | h'
  · cases h'
  · exact h'

lemma nodup_keys_foldl_pyDictInsert {α : Type} :
    ∀ (ps : List (String × α)) (d : List (String × α)),
      (d.map Prod.fst).Nodup →
      ((ps.foldl (fun d q => pyDictInsert d q.1 q.2) d).map Prod.fst).Nodup := by
  intro ps
  induction ps with
  | nil => intro d h; exact h
  | cons q qs ih => intro d h; exact ih _ (nodup_keys_pyDictInsert h)

lemma nodup_keys_pyDictOf {α : Type} (ps : List (String × α)) :
    ((pyDictOf ps).map Prod.fst).Nodup :=
  nodup_keys_foldl_pyDictInsert ps [] List.nodup_nil

lemma mem_keys_foldl_pyDictInsert {α : Type} :
    ∀ (ps : List (String × α)) (d : List (String × α)) (k : String),
      k ∈ d.map Prod.fst →
      k ∈ (ps.foldl (fun d q => pyDictInsert d q.1 q.2) d).map Prod.fst := by
  intro ps
  induction ps with
  | nil => intro d k h; exact h
  | cons q qs ih =>
    intro d k h
    exact ih _ k (mem_keys_pyDictInsert.mpr (Or.inl h))

lemma keys_pyDictOf_complete {α : Type} :
    ∀ (ps : List (String × α)) (p : String × α), p ∈ ps → p.1 ∈ (pyDictOf ps).map Prod.fst := by
  have haux : ∀ (ps : List (String × α)) (d : List (String × α)) (p : String × α),
      p ∈ ps → p.1 ∈ (ps.foldl (fun d q => pyDictInsert d q.1 q.2) d).map Prod.fst := by
    intro ps
    induction ps with
    | nil => intro d p h; cases h
    | cons q qs ih =>
      intro d p h
      rcases List.mem_cons.mp h with rfl | h'
      · exact mem_keys_foldl_pyDictInsert qs _ p.1 (mem_keys_pyDictInsert.mpr (Or.inr rfl))
      · exact ih _ p h'
  intro ps p h
  exact haux ps [] p h

lemma mem_allNodesDict_foldl :
    ∀ (sn : List TextNode) (d : List (String × TextNode)) (p : String × TextNode),
      p ∈ sn.foldl (fun d node =>
        if pyDictContains d node.node_id then d else pyDictInsert d node.node_id node) d →
      p ∈ d ∨ ∃ n ∈ sn, p = (n.node_id, n) := by
  intro sn
  induction sn with
  | nil => intro d p h; exact Or.inl h
  | cons n ns ih =>
    intro d p h
    rcases ih _ p h with h' | ⟨m, hm, rfl⟩
    · dsimp only at h'
      by_cases hc : pyDictContains d n.node_id
      · rw [if_pos hc] at h'
        exact Or.inl h'
      · rw [if_neg hc] at h'
        rcases mem_pyDictInsert h' with h'' | h''
        · exact Or.inl h''
        · exact Or.inr ⟨n, List.mem_cons_self n ns, h''⟩
    · exact Or.inr ⟨m, List.mem_cons_of_mem n hm, rfl⟩

lemma mem_allNodesDict {dn sn : List TextNode} {p : String × TextNode}
    (h : p ∈ allNodesDict dn sn) :
    p.1 = p.2.node_id ∧ (p.2 ∈ dn ∨ p.2 ∈ sn) := by
  unfold allNodesDict at h
  rcases mem_allNodesDict_foldl sn _ p h with h' | ⟨n, hn, rfl⟩
  · have h'' := mem_pyDictOf h'
    obtain ⟨x, hx, hxe⟩ := List.mem_map.mp h''
    rw [← hxe]
    exact ⟨rfl, Or.inl hx⟩
  · exact ⟨rfl, Or.inr hn⟩

lemma nodup_keys_allNodesDict_foldl :
    ∀ (sn : List TextNode) (d : List (String × TextNode)),
      (d.map Prod.fst).Nodup →
      ((sn.foldl (fun d node =>
        if pyDictContains d node.node_id then d else pyDictInsert d node.node_id node) d).map
        Prod.fst).Nodup := by
  intro sn
  induction sn with
  | nil => intro d h; exact h
  | cons n ns ih =>
    intro d h
    refine ih _ ?_
    dsimp only
    by_cases hc : pyDictContains d n.node_id
    · rwa [if_pos hc]
    · rw [if_neg hc]
      exact nodup_keys_pyDictInsert h

lemma nodup_keys_allNodesDict (dn sn : List TextNode) :
    ((allNodesDict dn sn).map Prod.fst).Nodup :=
  nodup_keys_allNodesDict_foldl sn _ (nodup_keys_pyDictOf _)

lemma mem_keys_allNodesDict_foldl :
    ∀ (sn : List TextNode) (d : List (String × TextNode)) (k : String),
      k ∈ d.map Prod.fst →
      k ∈ ((sn.foldl (fun d node =>
        if pyDictContains d node.node_id then d else pyDictInsert d node.node_id node) d).map
        Prod.fst) := by
  intro sn
  induction sn with
  | nil => intro d k h; exact h
  | cons n ns ih =>
    intro d k h
    refine ih _ k ?_
    dsimp only
    by_cases hc : pyDictContains d n.node_id
    · rwa [if_pos hc]
    · rw [if_neg hc]
      exact mem_keys_pyDictInsert.mpr (Or.inl h)

lemma keys_allNodesDict_foldl_sparse :
    ∀ (sn : List TextNode) (d : List (String × TextNode)) (n : TextNode), n ∈ sn →
      n.node_id ∈ ((sn.foldl (fun d node =>
        if pyDictContains d node.node_id then d else pyDictInsert d node.node_id node) d).map
        Prod.fst) := by
  intro sn
  induction sn with
  | nil => intro d n h; cases h
  | cons m ms ih =>
    intro d n h
    rcases List.mem_cons.mp h with rfl | h'
    · refine mem_keys_allNodesDict_foldl ms _ n.node_id ?_
      dsimp only
      by_cases hc : pyDictContains d n.node_id
      · rw [if_pos hc]
        exact (contains_iff_mem_keys d n.node_id).mp hc
      · rw [if_neg hc]
        exact mem_keys_pyDictInsert.mpr (Or.inr rfl)
    · exact ih _ n h'

lemma keys_allNodesDict_complete {dn sn : List TextNode} {n : TextNode}
    (h : n ∈ dn ∨ n ∈ sn) :
    n.node_id ∈ (allNodesDict dn sn).map Prod.fst := by
  unfold allNodesDict
  rcases h with h | h
  · refine mem_keys_allNodesDict_foldl sn _ n.node_id ?_
    exact keys_pyDictOf_complete _ (n.node_id, n) (List.mem_map.mpr ⟨n, h, rfl⟩)
  · exact keys_allNodesDict_foldl_sparse sn _ n h

lemma pyMax_error {l : List ℚ} {e : PyError} (h : pyMax l = .error e) : e = .valueError := by
  cases l with
  | nil => cases h; rfl
  | cons x xs => cases h

lemma pyMin_error {l : List ℚ} {e : PyError} (h : pyMin l = .error e) : e = .valueError := by
  cases l with
  | nil => cases h; rfl
  | cons x xs => cases h

lemma le_foldl_max : ∀ (xs : List ℚ) (a : ℚ), a ≤ xs.foldl max a := by
  intro xs
  induction xs with
  | nil => intro a; exact le_refl a
  | cons y ys ih => intro a; exact le_trans (le_max_left a y) (ih (max a y))

lemma mem_le_foldl_max : ∀ (xs : List ℚ) (a x : ℚ), x ∈ xs → x ≤ xs.foldl max a := by
  intro xs
  induction xs with
  | nil => intro a x h; cases h
  | cons y ys ih =>
    intro a x h
    rcases List.mem_cons.mp h with rfl | h'
    · exact le_trans (le_max_right a x) (le_foldl_max ys (max a x))
    · exact ih (max a y) x h'

lemma foldl_min_le : ∀ (xs : List ℚ) (a : ℚ), xs.foldl min a ≤ a := by
  intro xs
  induction xs with
  | nil => intro a; exact le_refl a
  | cons y ys ih => intro a; exact le_trans (ih (min a y)) (min_le_left a y)

lemma foldl_min_le_mem : ∀ (xs : List ℚ) (a x : ℚ), x ∈ xs → xs.foldl min a ≤ x := by
  intro xs
  induction xs with
  | nil => intro a x h; cases h
  | cons y ys ih =>
    intro a x h
    rcases List.mem_cons.mp h with rfl | h'
    · exact le_trans (foldl_min_le ys (min a x)) (min_le_right a x)
    · exact ih (min a y) x h'

lemma pyMax_ok {l : List ℚ} (h : l ≠ []) :
    ∃ hi, pyMax l = .ok hi ∧ ∀ x ∈ l, x ≤ hi := by
  cases l with
  | nil => exact absurd rfl h
  | cons x xs =>
    refine ⟨xs.foldl max x, rfl, ?_⟩
    intro y hy
    rcases List.mem_cons.mp hy with rfl | hy'
    · exact le_foldl_max xs y
    · exact mem_le_foldl_max xs x y hy'

lemma pyMin_ok {l : List ℚ} (h : l ≠ []) :
    ∃ lo, pyMin l = .ok lo ∧ ∀ x ∈ l, lo ≤ x := by
  cases l with
  | nil => exact absurd rfl h
  | cons x xs =>
    refine ⟨xs.foldl min x, rfl, ?_⟩
    intro y hy
    rcases List.mem_cons.mp hy with rfl | hy'
    · exact foldl_min_le xs y
    · exact foldl_min_le_mem xs x y hy'

lemma normalizeSims_error : ∀ {l : List ℚ} {lo hi : ℚ} {e : PyError},
    normalizeSims lo hi l = .error e → e = .zeroDivisionError := by
  intro l
  induction l with
  | nil => intro lo hi e h; cases h
  | cons x xs ih =>
    intro lo hi e h
    unfold normalizeSims at h
    by_cases hz : hi - lo = 0
    · simp only [pyDiv, if_pos hz] at h
      cases h
      rfl
    · simp only [pyDiv, if_neg hz] at h
      cases hrec : normalizeSims lo hi xs with
      | error e' =>
        rw [hrec] at h
        cases h
        exact ih hrec
      | ok ys =>
        rw [hrec] at h
        cases h

lemma normalizeSims_ok {lo hi : ℚ} (hz : hi - lo ≠ 0) :
    ∀ (l : List ℚ), normalizeSims lo hi l = .ok (l.map (fun x => (x - lo) / (hi - lo))) := by
  intro l
  induction l with
  | nil => rfl
  | cons x xs ih =>
    unfold normalizeSims
    simp only [pyDiv, if_neg hz, ih, List.map_cons]

lemma normalizedPerNode_error {tuples : List (ℚ × TextNode)} {e : PyError}
    (h : normalizedPerNode tuples = .error e) :
    e = .valueError ∨ e = .zeroDivisionError := by
  unfold normalizedPerNode at h
  dsimp only at h
  cases hmax : pyMax (tuples.map Prod.fst) with
  | error e' =>
    simp only [hmax] at h
    cases h
    exact Or.inl (pyMax_error hmax)
  | ok hi =>
    simp only [hmax] at h
    cases hmin : pyMin (tuples.map Prod.fst) with
    | error e' =>
      simp only [hmin] at h
      cases h
      exact Or.inl (pyMin_error hmin)
    | ok lo =>
      simp only [hmin] at h
      cases hns : normalizeSims lo hi (tuples.map Prod.fst) with
      | error e' =>
        simp only [hns] at h
        cases h
        exact Or.inr (normalizeSims_error hns)
      | ok norm =>
        simp only [hns] at h
        cases h

lemma normalizedPerNode_ok_of_two_distinct {tuples : List (ℚ × TextNode)}
    (h : ∃ a ∈ tuples.map Prod.fst, ∃ b ∈ tuples.map Prod.fst, a ≠ b) :
    ∃ d, normalizedPerNode tuples = .ok d := by
  obtain ⟨a, ha, b, hb, hab⟩ := h
  have hne : tuples.map Prod.fst ≠ [] := by
    intro hnil
    rw [hnil] at ha
    cases ha
  obtain ⟨hi, hhi, hhib⟩ := pyMax_ok hne
  obtain ⟨lo, hlo, hlob⟩ := pyMin_ok hne
  have hz : hi - lo ≠ 0 := by
    intro hz
    have hhl : hi = lo := by linarith
    have h1 : a = lo := le_antisymm (hhl ▸ hhib a ha) (hlob a ha)
    have h2 : b = lo := le_antisymm (hhl ▸ hhib b hb) (hlob b hb)
    exact hab (h1.trans h2.symm)
  have heq : normalizedPerNode tuples =
      .ok (pyDictOf ((tuples.map (fun t => t.2.node_id)).zip
        ((tuples.map Prod.fst).map (fun x => (x - lo) / (hi - lo))))) := by
    unfold normalizedPerNode
    dsimp only
    simp only [hhi, hlo, normalizeSims_ok hz]
  exact ⟨_, heq⟩

/-- Shape of a successful run of the fusion body: the three output fields are
the three projections of the sorted, truncated fused list, computed from the
two per-node dicts that the normalization steps returned. -/
lemma core_ok_inv {dn : List TextNode} {ds : List ℚ} {sn : List TextNode} {ss : List ℚ}
    {α : ℚ} {k : ℤ} {r : VectorStoreQueryResult}
    (h : relative_score_fusion_core dn ds sn ss α k = .ok r) :
    ∃ sp dp,
      normalizedPerNode (sortByScoreDesc (ss.zip sn)) = .ok sp ∧
      normalizedPerNode (sortByScoreDesc (ds.zip dn)) = .ok dp ∧
      r = { nodes := some ((pySlice k (sortByScoreDesc
              (fusedEntries (allNodesDict dn sn) sp dp α))).map Prod.snd),
            similarities := some ((pySlice k (sortByScoreDesc
              (fusedEntries (allNodesDict dn sn) sp dp α))).map Prod.fst),
            ids := some ((pySlice k (sortByScoreDesc
              (fusedEntries (allNodesDict dn sn) sp dp α))).map (fun t => t.2.node_id)) } := by
  unfold relative_score_fusion_core at h
  dsimp only at h
  cases hsp : normalizedPerNode (sortByScoreDesc (ss.zip sn)) with
  | error e =>
    simp only [hsp] at h
    cases h
  | ok sp =>
    simp only [hsp] at h
    cases hdp : normalizedPerNode (sortByScoreDesc (ds.zip dn)) with
    | error e =>
      simp only [hdp] at h
      cases h
    | ok dp =>
      simp only [hdp] at h
      cases h
      exact ⟨sp, dp, rfl, rfl, rfl⟩

/-- The fusion body never raises AssertionError: its only failure modes are
the ValueError of max/min on an empty list and the ZeroDivisionError of the
normalization. -/
lemma core_error {dn : List TextNode} {ds : List ℚ} {sn : List TextNode} {ss : List ℚ}
    {α : ℚ} {k : ℤ} {e : PyError}
    (h : relative_score_fusion_core dn ds sn ss α k = .error e) :
    e = .valueError ∨ e = .zeroDivisionError := by
  unfold relative_score_fusion_core at h
  dsimp only at h
  cases hsp : normalizedPerNode (sortByScoreDesc (ss.zip sn)) with
  | error e' =>
    simp only [hsp] at h
    cases h
    exact normalizedPerNode_error hsp
  | ok sp =>
    simp only [hsp] at h
    cases hdp : normalizedPerNode (sortByScoreDesc (ds.zip dn)) with
    | error e' =>
      simp only [hdp] at h
      cases h
      exact normalizedPerNode_error hdp
    | ok dp =>
      simp only [hdp] at h
      cases h

lemma fusion_eq_core {d s : VectorStoreQueryResult} {α : ℚ} {k : ℤ}
    {dn sn : List TextNode} {ds ss : List ℚ}
    (h1 : d.nodes = some dn) (h2 : d.similarities = some ds)
    (h3 : s.nodes = some sn) (h4 : s.similarities = some ss) :
    relative_score_fusion d s α k = relative_score_fusion_core dn ds sn ss α k := by
  unfold relative_score_fusion
  rw [h1, h2, h3, h4]

lemma fusion_ok_fields {d s : VectorStoreQueryResult} {α : ℚ} {k : ℤ}
    {r : VectorStoreQueryResult}
    (h : relative_score_fusion d s α k = .ok r) :
    ∃ dn ds sn ss, d.nodes = some dn ∧ d.similarities = some ds ∧
      s.nodes = some sn ∧ s.similarities = some ss ∧
      relative_score_fusion_core dn ds sn ss α k = .ok r := by
  unfold relative_score_fusion at h
  cases hdn : d.nodes with
  | none => rw [hdn] at h; cases h
  | some dn =>
    rw [hdn] at h
    cases hds : d.similarities with
    | none => rw [hds] at h; cases h
    | some ds =>
      rw [hds] at h
      cases hsn : s.nodes with
      | none => rw [hsn] at h; cases h
      | some sn =>
        rw [hsn] at h
        cases hss : s.similarities with
        | none => rw [hss] at h; cases h
        | some ss => rw [hss] at h; exact ⟨dn, ds, sn, ss, rfl, rfl, rfl, rfl, h⟩

lemma mem_sortByScoreDesc {α : Type} {l : List (ℚ × α)} {e : ℚ × α} :
    e ∈ sortByScoreDesc l ↔ e ∈ l :=
  (List.perm_insertionSort scoreGE l).mem_iff

lemma mem_pySlice {α : Type} {k : ℤ} {l : List α} {e : α} (h : e ∈ pySlice k l) : e ∈ l := by
  unfold pySlice at h
  split at h
  · exact List.take_subset _ _ h
  · exact List.take_subset _ _ h

/-- C2: every node returned by relative_score_fusion occurs among the nodes
of the dense result or of the sparse result; the output is a function of the
two results, alpha and top_k alone, which the type of the embedded
definition makes explicit. -/
theorem relative_score_fusion_nodes_from_inputs :
    ∀ (dense_result sparse_result : VectorStoreQueryResult) (alpha : ℚ) (top_k : ℤ)
      (r : VectorStoreQueryResult) (ln : List TextNode),
      relative_score_fusion dense_result sparse_result alpha top_k = .ok r →
      r.nodes = some ln →
      ∀ n ∈ ln,
        (∃ dn, dense_result.nodes = some dn ∧ n ∈ dn) ∨
        (∃ sn, sparse_result.nodes = some sn ∧ n ∈ sn) := by
  intro d s α k r ln hok hnodes n hn
  obtain ⟨dn, ds, sn, ss, hdn, hds, hsn, hss, hcore⟩ := fusion_ok_fields hok
  obtain ⟨sp, dp, _, _, hr⟩ := core_ok_inv hcore
  rw [hr] at hnodes
  simp only [VectorStoreQueryResult.nodes, Option.some.injEq] at hnodes
  rw [← hnodes] at hn
  obtain ⟨e, he, rfl⟩ := List.mem_map.mp hn
  have he' : e ∈ fusedEntries (allNodesDict dn sn) sp dp α :=
    mem_sortByScoreDesc.mp (mem_pySlice he)
  obtain ⟨kv, hkv, rfl⟩ := List.mem_map.mp he'
  rcases (mem_allNodesDict hkv).2 with h' | h'
  · exact Or.inl ⟨dn, hdn, h'⟩
  · exact Or.inr ⟨sn, hsn, h'⟩

/-- Witness for C2: on the concrete example inputs the fusion succeeds and
its first returned node indeed comes from the dense input nodes. -/
theorem relative_score_fusion_nodes_from_inputs_witness :
    (∃ dn, denseResultEx.nodes = some dn ∧ nodeA ∈ dn) ∨
    (∃ sn, sparseResultEx.nodes = some sn ∧ nodeA ∈ sn) :=
  relative_score_fusion_nodes_from_inputs denseResultEx sparseResultEx (1/2) 2
    fusionResultEx [nodeA, nodeC] ev_fusion rfl nodeA (List.mem_cons_self nodeA [nodeC])

/-- C6 counterexample: relative_score_fusion does check a precondition on
the framework objects it receives: on a dense result whose fields are None
its leading assert fires and the call raises AssertionError, refuting the
claim that no notebook-defined function checks or asserts any
precondition. -/
theorem relative_score_fusion_asserts_fire :
    relative_score_fusion { nodes := none, similarities := none, ids := none }
      sparseResultEx (1/2) 2 = .error .assertionError := rfl

/-- C6 amended: the four leading asserts of relative_score_fusion are the
precondition checks of the notebooks, and they are exactly the source of
AssertionError: the call raises AssertionError precisely when one of the
nodes or similarities fields of its two arguments is None. -/
theorem relative_score_fusion_assertion_iff :
    ∀ (dense_result sparse_result : VectorStoreQueryResult) (alpha : ℚ) (top_k : ℤ),
      relative_score_fusion dense_result sparse_result alpha top_k =
          .error .assertionError ↔
        (dense_result.nodes = none ∨ dense_result.similarities = none ∨
          sparse_result.nodes = none ∨ sparse_result.similarities = none) := by
  intro d s α k
  constructor
  · intro h
    by_contra hc
    push_neg at hc
    obtain ⟨h1, h2, h3, h4⟩ := hc
    obtain ⟨dn, hdn⟩ := Option.ne_none_iff_exists'.mp h1
    obtain ⟨ds, hds⟩ := Option.ne_none_iff_exists'.mp h2
    obtain ⟨sn, hsn⟩ := Option.ne_none_iff_exists'.mp h3
    obtain ⟨ss, hss⟩ := Option.ne_none_iff_exists'.mp h4
    rw [fusion_eq_core hdn hds hsn hss] at h
    rcases core_error h with h' | h' <;> cases h'
  · intro h
    unfold relative_score_fusion
    rcases h with h | h | h | h
    · rw [h]
    · cases hdn : d.nodes with
      | none => rfl
      | some dn => rw [h]
    · cases hdn : d.nodes with
      | none => rfl
      | some dn =>
        cases hds : d.similarities with
        | none => rfl
        | some ds => rw [h]
    · cases hdn : d.nodes with
      | none => rfl
      | some dn =>
        cases hds : d.similarities with
        | none => rfl
        | some ds =>
          cases hsn : s.nodes with
          | none => rfl
          | some sn => rw [h]

/-- C8: on a sparse result holding a single retrieved node (so a non-empty
all-equal similarities list) the min-max normalization divides by
max - min = 0 and relative_score_fusion raises ZeroDivisionError. -/
theorem relative_score_fusion_single_sparse_zero_division :
    relative_score_fusion denseResultEx
      { nodes := some [nodeC], similarities := some [5], ids := some ["c"] } (1/2) 2 =
    .error .zeroDivisionError := by
  have h0 : relative_score_fusion denseResultEx
      { nodes := some [nodeC], similarities := some [5], ids := some ["c"] } (1/2) 2 =
      relative_score_fusion_core [nodeA, nodeB] [3, 1] [nodeC] [5] (1/2) 2 := rfl
  have hmax : pyMax [(5:ℚ)] = .ok 5 := rfl
  have hmin : pyMin [(5:ℚ)] = .ok 5 := rfl
  have hns : normalizeSims 5 5 [5] = .error .zeroDivisionError := by
    norm_num [normalizeSims, pyDiv]
  have hnorm : normalizedPerNode [((5:ℚ), nodeC)] = .error .zeroDivisionError := by
    unfold normalizedPerNode
    dsimp only
    simp only [List.map_cons, List.map_nil, Prod.fst, hmax, hmin, hns]
  have hzip : ([(5:ℚ)].zip [nodeC]) = [(5, nodeC)] := rfl
  have hsort : sortByScoreDesc [((5:ℚ), nodeC)] = [(5, nodeC)] := rfl
  rw [h0]
  unfold relative_score_fusion_core
  dsimp only
  simp only [hzip, hsort, hnorm]

/-- C5 counterexample: the notebooks do define their own algorithm over
data: relative_score_fusion, run on two concrete retrieval results, locally
computes a fused, normalized, sorted and truncated result, with no external
component involved; this refutes the claim that every cell only imports
and configures pre-built external components. -/
theorem relative_score_fusion_computes_locally :
    relative_score_fusion denseResultEx sparseResultEx (1/2) 2 = .ok fusionResultEx :=
  ev_fusion

/-- C5 amended: the notebooks define one genuine local data transformation,
relative_score_fusion (plus the small helpers magic_formula and the sparse
vector extraction wrappers); every successful run assembles its entire
output from one internally computed scored list, whose projections are the
nodes, similarities and ids fields. -/
theorem relative_score_fusion_output_locally_assembled :
    ∀ (dense_result sparse_result : VectorStoreQueryResult) (alpha : ℚ) (top_k : ℤ)
      (r : VectorStoreQueryResult),
      relative_score_fusion dense_result sparse_result alpha top_k = .ok r →
      ∃ entries : List (ℚ × TextNode),
        r.nodes = some (entries.map Prod.snd) ∧
        r.similarities = some (entries.map Prod.fst) ∧
        r.ids = some ((entries.map Prod.snd).map TextNode.node_id) := by
  intro d s α k r hok
  obtain ⟨dn, ds, sn, ss, _, _, _, _, hcore⟩ := fusion_ok_fields hok
  obtain ⟨sp, dp, _, _, hr⟩ := core_ok_inv hcore
  refine ⟨pySlice k (sortByScoreDesc (fusedEntries (allNodesDict dn sn) sp dp α)), ?_, ?_, ?_⟩
  · rw [hr]
  · rw [hr]
  · rw [hr, List.map_map]
    rfl

/-- Witness for C5: the amended statement instantiated on the concrete
example run. -/
theorem relative_score_fusion_output_locally_assembled_witness :
    ∃ entries : List (ℚ × TextNode),
      fusionResultEx.nodes = some (entries.map Prod.snd) ∧
      fusionResultEx.similarities = some (entries.map Prod.fst) ∧
      fusionResultEx.ids = some ((entries.map Prod.snd).map TextNode.node_id) :=
  relative_score_fusion_output_locally_assembled denseResultEx sparseResultEx (1/2) 2
    fusionResultEx ev_fusion

/-- C3 counterexample: the fused score is not monotone in the normalized
scores for every alpha: with alpha = -1 the fused score strictly decreases
when the normalized sparse similarity grows from 0 to 1, so the
monotonicity clause of the claim fails without a sign restriction on
alpha. -/
theorem fuse_not_monotone_for_negative_alpha :
    (0:ℚ) ≤ 1 ∧ ¬ (fuse (-1) 0 0 ≤ fuse (-1) 1 0) := by
  norm_num [fuse]

/-- C3 amended: over the dict of all node ids built from the union of the
two result sets, every fused entry carries the score
alpha * (normalized sparse + normalized dense), where a node id absent from
a per-node dict contributes the default 0 of dict.get; every node of either
input owns an entry; and for nonnegative alpha the fused score formula is
monotonically non-decreasing in each normalized score. -/
theorem fusedEntries_score_formula :
    ∀ (dense_nodes sparse_nodes : List TextNode)
      (sparse_per_node dense_per_node : List (String × ℚ)) (alpha : ℚ),
      (∀ e ∈ fusedEntries (allNodesDict dense_nodes sparse_nodes)
          sparse_per_node dense_per_node alpha,
        e.1 = alpha * (pyDictGetD sparse_per_node e.2.node_id 0 +
          pyDictGetD dense_per_node e.2.node_id 0)) ∧
      (∀ n : TextNode, (n ∈ dense_nodes ∨ n ∈ sparse_nodes) →
        ∃ e ∈ fusedEntries (allNodesDict dense_nodes sparse_nodes)
          sparse_per_node dense_per_node alpha, e.2.node_id = n.node_id) ∧
      (∀ (s₁ s₂ d₁ d₂ : ℚ), 0 ≤ alpha → s₁ ≤ s₂ → d₁ ≤ d₂ →
        fuse alpha s₁ d₁ ≤ fuse alpha s₂ d₂) := by
  intro dn sn sp dp α
  refine ⟨?_, ?_, ?_⟩
  · intro e he
    obtain ⟨kv, hkv, rfl⟩ := List.mem_map.mp he
    have hk := (mem_allNodesDict hkv).1
    simp only [fuse]
    rw [← hk]
  · intro n hn
    have hkey := keys_allNodesDict_complete hn
    obtain ⟨kv, hkv, hkve⟩ := List.mem_map.mp hkey
    refine ⟨(fuse α (pyDictGetD sp kv.1 0) (pyDictGetD dp kv.1 0), kv.2),
      List.mem_map.mpr ⟨kv, hkv, rfl⟩, ?_⟩
    have hk := (mem_allNodesDict hkv).1
    rw [← hk, hkve]
  · intro s₁ s₂ d₁ d₂ hα hs hd
    unfold fuse
    exact mul_le_mul_of_nonneg_left (add_le_add hs hd) hα

/-- Witness for C3: the amended statement instantiated on a concrete dict
with one dense node, checking the score formula on its entry and the
monotonicity of the fused score for alpha = 1/2. -/
theorem fusedEntries_score_formula_witness :
    (fuse (1/2) 0 1, nodeA).1 =
      (1/2 : ℚ) * (pyDictGetD ([] : List (String × ℚ)) (fuse (1/2) 0 1, nodeA).2.node_id 0 +
        pyDictGetD [("a", (1:ℚ))] (fuse (1/2) 0 1, nodeA).2.node_id 0) ∧
    (∃ e ∈ fusedEntries (allNodesDict [nodeA] []) [] [("a", (1:ℚ))] (1/2),
      e.2.node_id = nodeA.node_id) ∧
    fuse (1/2) 0 0 ≤ fuse (1/2) 1 1 := by
  have h := fusedEntries_score_formula [nodeA] [] [] [("a", (1:ℚ))] (1/2)
  exact ⟨h.1 (fuse (1/2) 0 1, nodeA) (List.mem_cons_self _ _),
    h.2.1 nodeA (Or.inl (List.mem_cons_self _ _)),
    h.2.2 0 1 0 1 (by norm_num) (by norm_num) (by norm_num)⟩

lemma sorted_sortByScoreDesc {α : Type} (l : List (ℚ × α)) :
    (sortByScoreDesc l).Sorted scoreGE :=
  List.sorted_insertionSort scoreGE l

lemma pySlice_of_nonneg {α : Type} {k : ℤ} (hk : 0 ≤ k) (l : List α) :
    pySlice k l = l.take k.toNat :=
  if_pos hk

lemma pySlice_sublist {α : Type} (k : ℤ) (l : List α) : (pySlice k l).Sublist l := by
  unfold pySlice
  split
  · exact List.take_sublist _ _
  · exact List.take_sublist _ _

lemma nodup_ids_fusedEntries (dn sn : List TextNode)
    (sp dp : List (String × ℚ)) (α : ℚ) :
    ((fusedEntries (allNodesDict dn sn) sp dp α).map (fun e => e.2.node_id)).Nodup := by
  unfold fusedEntries
  rw [List.map_map]
  show ((allNodesDict dn sn).map (fun kv => kv.2.node_id)).Nodup
  have hcong : (allNodesDict dn sn).map (fun kv => kv.2.node_id) =
      (allNodesDict dn sn).map Prod.fst :=
    List.map_congr_left (fun kv hkv => ((mem_allNodesDict hkv).1).symm)
  rw [hcong]
  exact nodup_keys_allNodesDict dn sn

/-- C9 amended: on inputs whose fields are non-None, whose nodes and
similarities lists agree in length, whose similarity lists each contain two
distinct values, and whose top_k is nonnegative, relative_score_fusion
returns a well-formed result: nodes, similarities and ids of equal length
at most top_k, similarities sorted non-increasingly, ids the node_id
projection of nodes, and ids pairwise distinct. -/
theorem relative_score_fusion_wellformed :
    ∀ (dense_result sparse_result : VectorStoreQueryResult) (alpha : ℚ) (top_k : ℤ)
      (dn sn : List TextNode) (ds ss : List ℚ),
      dense_result.nodes = some dn → dense_result.similarities = some ds →
      sparse_result.nodes = some sn → sparse_result.similarities = some ss →
      dn.length = ds.length → sn.length = ss.length →
      (∃ a ∈ ds, ∃ b ∈ ds, a ≠ b) → (∃ a ∈ ss, ∃ b ∈ ss, a ≠ b) →
      0 ≤ top_k →
      ∃ (ln : List TextNode) (ls : List ℚ),
        relative_score_fusion dense_result sparse_result alpha top_k =
          .ok { nodes := some ln, similarities := some ls,
                ids := some (ln.map TextNode.node_id) } ∧
        ln.length = ls.length ∧ (ln.length : ℤ) ≤ top_k ∧
        ls.Sorted (· ≥ ·) ∧ (ln.map TextNode.node_id).Nodup := by
  intro d s α k dn sn ds ss hdn hds hsn hss hdl hsl hdd hsd hk
  have hsperm : ((sortByScoreDesc (ss.zip sn)).map Prod.fst).Perm ss := by
    have h1 : (sortByScoreDesc (ss.zip sn)).Perm (ss.zip sn) := List.perm_insertionSort _ _
    have h2 := h1.map Prod.fst
    rwa [List.map_fst_zip ss sn (le_of_eq hsl.symm)] at h2
  have hdperm : ((sortByScoreDesc (ds.zip dn)).map Prod.fst).Perm ds := by
    have h1 : (sortByScoreDesc (ds.zip dn)).Perm (ds.zip dn) := List.perm_insertionSort _ _
    have h2 := h1.map Prod.fst
    rwa [List.map_fst_zip ds dn (le_of_eq hdl.symm)] at h2
  obtain ⟨a, ha, b, hb, hab⟩ := hsd
  obtain ⟨sp, hsp⟩ := normalizedPerNode_ok_of_two_distinct
    ⟨a, hsperm.mem_iff.mpr ha, b, hsperm.mem_iff.mpr hb, hab⟩
  obtain ⟨a', ha', b', hb', hab'⟩ := hdd
  obtain ⟨dp, hdp⟩ := normalizedPerNode_ok_of_two_distinct
    ⟨a', hdperm.mem_iff.mpr ha', b', hdperm.mem_iff.mpr hb', hab'⟩
  rw [fusion_eq_core hdn hds hsn hss]
  unfold relative_score_fusion_core
  dsimp only
  simp only [hsp, hdp]
  set ft := pySlice k (sortByScoreDesc (fusedEntries (allNodesDict dn sn) sp dp α)) with hft
  refine ⟨ft.map Prod.snd, ft.map Prod.fst, ?_, ?_, ?_, ?_, ?_⟩
  · rw [List.map_map]
    rfl
  · simp [List.length_map]
  · rw [List.length_map, hft, pySlice_of_nonneg hk]
    have hlen : ((sortByScoreDesc (fusedEntries (allNodesDict dn sn) sp dp α)).take
        k.toNat).length ≤ k.toNat := by
      rw [List.length_take]
      exact min_le_left _ _
    calc (((sortByScoreDesc (fusedEntries (allNodesDict dn sn) sp dp α)).take
        k.toNat).length : ℤ) ≤ (k.toNat : ℤ) := by exact_mod_cast hlen
      _ = k := Int.toNat_of_nonneg hk
  · have hsorted : (sortByScoreDesc (fusedEntries (allNodesDict dn sn) sp dp α)).Sorted
        scoreGE := sorted_sortByScoreDesc _
    have hft_sorted : ft.Pairwise scoreGE :=
      List.Pairwise.sublist (pySlice_sublist _ _) hsorted
    exact List.pairwise_map.mpr hft_sorted
  · have hnodup := nodup_ids_fusedEntries dn sn sp dp α
    have hperm : ((sortByScoreDesc (fusedEntries (allNodesDict dn sn) sp dp α)).map
        (fun e => e.2.node_id)).Perm ((fusedEntries (allNodesDict dn sn) sp dp α).map
        (fun e => e.2.node_id)) := (List.perm_insertionSort _ _).map _
    have hnodup' := (hperm.nodup_iff).mpr hnodup
    have hsub : (ft.map (fun e => e.2.node_id)).Sublist
        ((sortByScoreDesc (fusedEntries (allNodesDict dn sn) sp dp α)).map
          (fun e => e.2.node_id)) :=
      (pySlice_sublist _ _).map _
    have := hsub.nodup hnodup'
    rw [List.map_map] at *
    exact this

/-- Evaluation of the example fusion for an arbitrary top_k: everything up
to the final slice is independent of top_k. -/
lemma ev_fusion_any_k (k : ℤ) : relative_score_fusion denseResultEx sparseResultEx (1/2) k =
    .ok { nodes := some ((pySlice k [((1:ℚ)/2, nodeA), (1/2, nodeC), (0, nodeB)]).map Prod.snd),
          similarities :=
            some ((pySlice k [((1:ℚ)/2, nodeA), (1/2, nodeC), (0, nodeB)]).map Prod.fst),
          ids := some ((pySlice k [((1:ℚ)/2, nodeA), (1/2, nodeC), (0, nodeB)]).map
            (fun t => t.2.node_id)) } := by
  have h0 : relative_score_fusion denseResultEx sparseResultEx (1/2) k =
      relative_score_fusion_core [nodeA, nodeB] [3, 1] [nodeB, nodeC] [5, 10] (1/2) k := rfl
  have hzipS : (([(5:ℚ), 10]).zip [nodeB, nodeC]) = [(5, nodeB), (10, nodeC)] := rfl
  have hzipD : (([(3:ℚ), 1]).zip [nodeA, nodeB]) = [(3, nodeA), (1, nodeB)] := rfl
  have hsortS : sortByScoreDesc [((5:ℚ), nodeB), (10, nodeC)] = [(10, nodeC), (5, nodeB)] := by
    norm_num [sortByScoreDesc, List.insertionSort, List.orderedInsert, scoreGE]
  have hsortD : sortByScoreDesc [((3:ℚ), nodeA), (1, nodeB)] = [(3, nodeA), (1, nodeB)] := by
    norm_num [sortByScoreDesc, List.insertionSort, List.orderedInsert, scoreGE]
  have hall : allNodesDict [nodeA, nodeB] [nodeB, nodeC] =
      [("a", nodeA), ("b", nodeB), ("c", nodeC)] := rfl
  rw [h0]
  unfold relative_score_fusion_core
  dsimp only
  simp only [hzipS, hzipD, hsortS, hsortD, hall, ev_norm_sparse, ev_norm_dense,
    ev_fused_sorted]

/-- C9 counterexample: two inputs satisfying all the hypotheses of the
claim on which the stated conclusion fails.  First, a sparse result with
non-None fields and two distinct similarity values but only one node: zip
truncates the pair list to one element, the normalization divides by
max - min = 0, and the call raises ZeroDivisionError instead of returning a
result.  Second, with well-formed two-node inputs but top_k = -1 (a Python
slice l[:-1]), the call returns two nodes, so the returned length is not at
most top_k. -/
theorem relative_score_fusion_wellformed_counterexample :
    (relative_score_fusion denseResultEx
      { nodes := some [nodeC], similarities := some [5, 6], ids := some ["c"] } (1/2) 2 =
        .error .zeroDivisionError ∧
      (∃ a ∈ [(5:ℚ), 6], ∃ b ∈ [(5:ℚ), 6], a ≠ b)) ∧
    (relative_score_fusion denseResultEx sparseResultEx (1/2) (-1) =
        .ok { nodes := some [nodeA, nodeC], similarities := some [1/2, 1/2],
              ids := some ["a", "c"] } ∧
      ¬ (([nodeA, nodeC].length : ℤ) ≤ -1)) := by
  constructor
  · constructor
    · have h0 : relative_score_fusion denseResultEx
          { nodes := some [nodeC], similarities := some [5, 6], ids := some ["c"] } (1/2) 2 =
          relative_score_fusion_core [nodeA, nodeB] [3, 1] [nodeC] [5, 6] (1/2) 2 := rfl
      have hmax : pyMax [(5:ℚ)] = .ok 5 := rfl
      have hmin : pyMin [(5:ℚ)] = .ok 5 := rfl
      have hns : normalizeSims 5 5 [5] = .error .zeroDivisionError := by
        norm_num [normalizeSims, pyDiv]
      have hnorm : normalizedPerNode [((5:ℚ), nodeC)] = .error .zeroDivisionError := by
        unfold normalizedPerNode
        dsimp only
        simp only [List.map_cons, List.map_nil, Prod.fst, hmax, hmin, hns]
      have hzip : ([(5:ℚ), 6].zip [nodeC]) = [(5, nodeC)] := rfl
      have hsort : sortByScoreDesc [((5:ℚ), nodeC)] = [(5, nodeC)] := rfl
      rw [h0]
      unfold relative_score_fusion_core
      dsimp only
      simp only [hzip, hsort, hnorm]
    · exact ⟨5, by simp, 6, by simp, by norm_num⟩
  · constructor
    · have h := ev_fusion_any_k (-1)
      have hslice : pySlice (-1) [((1:ℚ)/2, nodeA), (1/2, nodeC), (0, nodeB)] =
          [(1/2, nodeA), (1/2, nodeC)] := rfl
      rw [h, hslice]
      rfl
    · norm_num

/-- Witness for C9: the amended statement instantiated on the concrete
example inputs, whose hypotheses all hold. -/
theorem relative_score_fusion_wellformed_witness :
    ∃ (ln : List TextNode) (ls : List ℚ),
      relative_score_fusion denseResultEx sparseResultEx (1/2) 2 =
        .ok { nodes := some ln, similarities := some ls,
              ids := some (ln.map TextNode.node_id) } ∧
      ln.length = ls.length ∧ (ln.length : ℤ) ≤ 2 ∧
      ls.Sorted (· ≥ ·) ∧ (ln.map TextNode.node_id).Nodup :=
  relative_score_fusion_wellformed denseResultEx sparseResultEx (1/2) 2
    [nodeA, nodeB] [nodeB, nodeC] [3, 1] [5, 10] rfl rfl rfl rfl rfl rfl
    ⟨3, by simp, 1, by simp, by norm_num⟩ ⟨5, by simp, 10, by simp, by norm_num⟩
    (by norm_num)

/-- C1 counterexample: an SDK failure that is caught, not propagated: when
every load call raises, the index-loading cell still completes normally,
assigns no index, and sets index_loaded to False, altering the control
flow of the following cells; so not every exception from an underlying SDK
call is uncaught. -/
theorem load_indices_catches_sdk_error :
    (fun _ : String => (Except.error SdkError.fileNotFoundError : Except SdkError Unit))
        "./storage/march" = Except.error SdkError.fileNotFoundError ∧
    load_indices (fun _ : String =>
        (Except.error SdkError.fileNotFoundError : Except SdkError Unit)) =
      { march_index := none, june_index := none, sept_index := none,
        index_loaded := false } :=
  ⟨rfl, rfl⟩

/-- C1 amended: the index-loading cell is the single exception handler of
the notebooks: its bare except catches every SDK exception, and the cell
completes with index_loaded = True exactly when all three loads succeed. -/
theorem load_indices_flag_iff_all_loads_ok :
    ∀ {ι : Type} (load : String → Except SdkError ι),
      (load_indices load).index_loaded = true ↔
        ((load "./storage/march").isOk = true ∧ (load "./storage/june").isOk = true ∧
          (load "./storage/sept").isOk = true) := by
  intro ι load
  cases hm : load "./storage/march" <;> cases hj : load "./storage/june" <;>
    cases hs : load "./storage/sept" <;>
      simp [load_indices, hm, hj, hs, Except.isOk, Except.toBool]

/-- C4 counterexample: magic_formula is a repository-defined function that
is a pure function of its explicit arguments, with no dependence on any
hosted model: its output on (100, 40) is the fixed value 60, equal on any
two runs. -/
theorem magic_formula_is_pure :
    magic_formula 100 40 = 60 ∧ magic_formula 100 40 = magic_formula 100 40 :=
  ⟨rfl, rfl⟩

/-- C4 amended: not every notebook-defined function depends on a live
model response: magic_formula is deterministic local arithmetic, returning
exactly revenue - cost, so adding the cost back always recovers the
revenue. -/
theorem magic_formula_deterministic :
    ∀ (revenue cost : ℤ),
      magic_formula revenue cost = revenue - cost ∧
      magic_formula revenue cost + cost = revenue := by
  intro r c
  exact ⟨rfl, sub_add_cancel r c⟩

/-- C7 counterexample: awaiting get_agent_with_context_awareness is not
equivalent to invoking the external retrieval call directly: the function
locally transforms the awaited retrieval result, joining the node texts
with a separator and wrapping them in the system prompt template, so the
resulting prompt is neither of the retrieved texts. -/
theorem get_agent_transforms_retrieval :
    (get_agent_with_context_awareness "What was the X of March 2022"
        (fun _ => [⟨⟨"a", "A"⟩, 1⟩, ⟨⟨"b", "B"⟩, 1⟩]) ([] : List Unit)).system_prompt =
      system_prompt_template "A\n----\nB" ∧
    (get_agent_with_context_awareness "What was the X of March 2022"
        (fun _ => [⟨⟨"a", "A"⟩, 1⟩, ⟨⟨"b", "B"⟩, 1⟩]) ([] : List Unit)).system_prompt ≠
      "A" ∧
    (get_agent_with_context_awareness "What was the X of March 2022"
        (fun _ => [⟨⟨"a", "A"⟩, 1⟩, ⟨⟨"b", "B"⟩, 1⟩]) ([] : List Unit)).system_prompt ≠
      "B" := by
  refine ⟨rfl, ?_, ?_⟩ <;> decide

/-- C7 amended: the deepinfra async main is an exact pass-through of its
single awaited SDK call, and get_agent_with_context_awareness awaits its
retrieval call exactly once with no retry, batching, scheduling or
cancellation logic, but then applies a local transformation: it joins the
retrieved node texts and interpolates them into the system prompt of the
agent it builds. -/
theorem async_calls_characterization :
    (∀ (f : String → List ℚ), deepinfra_async_main f = f "hello world") ∧
    (∀ (τ : Type) (query : String) (retr : String → List NodeWithScore) (tools : List τ),
      get_agent_with_context_awareness query retr tools =
        { tools := tools, llm := "gpt-4o",
          system_prompt := system_prompt_template
            (String.intercalate "\n----\n" ((retr query).map (fun n => n.node.text))) }) :=
  ⟨fun _ => rfl, fun _ _ _ _ => rfl⟩

/-- C10 counterexample: on an LLMCompletionEndEvent whose response has no
trustworthiness_score entry, handle raises KeyError instead of setting the
score and appending the event, so the update clause of the claim does not
hold for every completion event. -/
theorem handle_keyerror_on_missing_score :
    GetTrustworthinessScore.handle { events := [], trustworthiness_score := 0 }
      (.llmCompletionEnd { text := "resp", additional_kwargs := [] }) =
      .error .keyError := rfl

/-- C10 amended: handle changes state only on completion events: any other
event leaves the state unchanged; a completion event whose response carries
a trustworthiness_score sets the score to that value and appends the event,
and one without the key raises KeyError, changing nothing. -/
theorem handle_frame_effect :
    ∀ (st : GetTrustworthinessScoreState) (resp : CompletionResponse) (nm : String),
      GetTrustworthinessScore.handle st (.otherEvent nm) = .ok st ∧
      GetTrustworthinessScore.handle st (.llmCompletionEnd resp) =
        (match pyDictFind resp.additional_kwargs "trustworthiness_score" with
          | some v => .ok { events := st.events ++ [.llmCompletionEnd resp],
                            trustworthiness_score := v }
          | none => .error .keyError) := by
  intro st resp nm
  refine ⟨rfl, ?_⟩
  unfold GetTrustworthinessScore.handle pyDictGetItem
  cases h : pyDictFind resp.additional_kwargs "trustworthiness_score" <;> simp [h]

/-- Witness for C6: the amended iff applied at a concrete input whose
dense nodes field is None, yielding the AssertionError outcome. -/
theorem relative_score_fusion_assertion_iff_witness :
    relative_score_fusion { nodes := none, similarities := none, ids := none }
      denseResultEx (1/2) 2 = .error .assertionError :=
  (relative_score_fusion_assertion_iff
    { nodes := none, similarities := none, ids := none } denseResultEx (1/2) 2).mpr
    (Or.inl rfl)

/-- Witness for C1: the amended iff applied to a concrete oracle whose
three loads all succeed, yielding index_loaded = True. -/
theorem load_indices_flag_iff_witness :
    (load_indices (fun _ : String => (Except.ok () : Except SdkError Unit))).index_loaded =
      true :=
  (load_indices_flag_iff_all_loads_ok
    (fun _ : String => (Except.ok () : Except SdkError Unit))).mpr ⟨rfl, rfl, rfl⟩
